import Mathlib

/-!
Verification of the gold_tracker repository.

Shallow embedding of the data-acquisition and derived-metrics core of
`gold_telegram_bot.py`, `gold_bot_enhanced.py` and `config.py`.

Modelling conventions:
* Python floats are embedded as exact rationals.  Every constant in the
  source is decimal (`31.1035`, `0.125`, `1.025`, ...) and is represented
  exactly by the corresponding rational literal.
* Python `round(x, 2)` is embedded as rounding `100 * x` to the nearest
  integer and dividing by `100` (Mathlib `round`, which rounds halves up;
  Python rounds halves to even, but no quantity evaluated in this file
  lies on a half-way point, so the two conventions agree everywhere they
  are compared).
* Python truthiness on numbers (`if rate:`) is `≠ 0` on present values;
  optional values are `Option ℚ`, with `none` for Python `None`.
* One HTTP call to a source is modelled by `Attempt`: either a network
  failure (`requests.RequestException`, retried by `fetch_with_retry`)
  or a usable 200 response carrying the value extracted by the source's
  parser (`none` when the field is missing or the parser raised).
  An adapter is a function from the call index to the call's outcome,
  so a stub adapter can change behaviour from one attempt to the next.
* `fetch_with_retry` and the source loops additionally return the number
  of HTTP calls made per adapter, and the list of back-off sleeps (in
  seconds) performed, so that short-circuit and retry-exhaustion claims
  can be stated as facts about calls that were never made.
-/

namespace GoldTracker

/-- `MarketConstants.TROY_OUNCE_TO_GRAMS` from `config.py`, also the literal
`31.1035` at `gold_telegram_bot.py` lines 103, 122, 232. -/
def troyOunceToGrams : ℚ := 31.1035

/-- `import_duty_rate = 0.125` from `calculate_india_landed_rate`. -/
def importDutyRate : ℚ := 0.125

/-- `gst_rate = 0.03` from `calculate_india_landed_rate`. -/
def gstRate : ℚ := 0.03

/-- `mcx_premium = 1.025` from `get_mcx_gold`. -/
def mcxPremium : ℚ := 1.025

/-- Python `round(x, 2)`: round to two decimal places. -/
def round2 (x : ℚ) : ℚ := ((round (100 * x) : ℤ) : ℚ) / 100

/-- `GoldDataFetcher.calculate_india_landed_rate` (`gold_telegram_bot.py`
lines 222-243).  The Python signature takes floats; the guard
`if not us_gold_price or not usd_inr: return None` treats both `None`
and `0.0` as missing, so the embedding takes `Option ℚ` inputs. -/
def calculate_india_landed_rate (us_gold_price usd_inr : Option ℚ) : Option ℚ :=
  match us_gold_price, usd_inr with
  | some g, some r =>
    if g = 0 ∨ r = 0 then none
    else
      let inr_per_gram := g * r / troyOunceToGrams
      let landed_rate := inr_per_gram * (1 + importDutyRate) * (1 + gstRate)
      some (round2 landed_rate)
  | _, _ => none

/-- The landed-rate formula as the specification words it:
`((internationalSpotPrice × usdToLocalRate) / ounceToGramConstant)
× (1 + importDutyRate) × (1 + taxRate)`, rounded to 2 decimals, with
`ounceToGramConstant = 31.1035`, `importDutyRate = 0.125`, `taxRate = 0.03`.
Written from the spec sentence, to be compared with
`calculate_india_landed_rate`. -/
def landedRateSpec (spot fx : ℚ) : ℚ :=
  round2 (spot * fx / 31.1035 * (1 + 0.125) * (1 + 0.03))

/-- Trend direction of the international (US) price, as classified by
`fetch_all_data` (`gold_telegram_bot.py` lines 260-268). -/
inductive Trend where
  | up
  | down
  | flat
deriving DecidableEq

/-- The US-trend computation of `fetch_all_data` (`gold_telegram_bot.py`
lines 260-268): only runs when both `us_current` and `us_prev` are truthy
(present and non-zero); computes `change = current - prev` and
`pct_change = change / prev * 100`, classifying UP / DOWN / FLAT on the
sign of `change`.  Returns the direction together with the percent change
whose computation divides by `prev`. -/
def us_trend_pct (us_current us_prev : Option ℚ) : Option (Trend × ℚ) :=
  match us_current, us_prev with
  | some c, some p =>
    if c = 0 ∨ p = 0 then none
    else
      let change := c - p
      let pct_change := change / p * 100
      if change > 0 then some (Trend.up, pct_change)
      else if change < 0 then some (Trend.down, pct_change)
      else some (Trend.flat, pct_change)
  | _, _ => none

/-- Trend tag of `get_mcx_gold`: the string starts as `"CALCULATED"` and
is replaced by UP / DOWN / FLAT using a ±50 threshold when a previous
price is available. -/
inductive McxTrend where
  | calculated
  | up
  | down
  | flat
deriving DecidableEq

/-- `GoldDataFetcher.get_mcx_gold` (`gold_telegram_bot.py` lines 111-148),
as a function of its two resolved inputs `(us_gold_current, us_gold_prev)`
and `usd_inr`.  Requires both `us_gold_current` and `usd_inr` truthy;
the returned price is `round(inr_per_gram * 10 * 1.025, 2)`; the trend
uses the ±50 threshold of lines 133-138 and stays `CALCULATED` when
`us_gold_prev` is falsy. -/
def get_mcx_gold (us_gold : Option ℚ × Option ℚ) (usd_inr : Option ℚ) :
    Option ℚ × Option McxTrend :=
  match us_gold, usd_inr with
  | (some current, prevOpt), some fx =>
    if current = 0 ∨ fx = 0 then (none, none)
    else
      let inr_per_gram := current * fx / troyOunceToGrams
      let mcx_price := inr_per_gram * 10 * mcxPremium
      let trend : McxTrend :=
        match prevOpt with
        | some prev =>
          if prev = 0 then McxTrend.calculated
          else
            let prev_mcx := prev * fx / troyOunceToGrams * 10 * mcxPremium
            let change := mcx_price - prev_mcx
            if change > 50 then McxTrend.up
            else if change < -50 then McxTrend.down
            else McxTrend.flat
        | none => McxTrend.calculated
      (some (round2 mcx_price), some trend)
  | _, _ => (none, none)

/-- The domestic futures-equivalent price as the specification words it:
`((internationalSpotPrice × usdToLocalRate) / ounceToGramConstant)
× lotGrams × premiumFactor`, rounded to nearest whole unit
(`lotGrams = 10`, `premiumFactor = 1.025`).  Written from the spec
sentence, to be compared with the price component of `get_mcx_gold`. -/
def mcxPriceSpec (spot fx : ℚ) : ℚ :=
  ((round (spot * fx / 31.1035 * 10 * 1.025) : ℤ) : ℚ)

/-- Outcome of one HTTP call to a source: a `requests.RequestException`
(caught and retried by `fetch_with_retry`), or a usable 200 response
carrying whatever the source's parser extracted from it. -/
inductive Attempt (α : Type) where
  | fail
  | success (v : α)
deriving DecidableEq

/-- The body of the `for attempt in range(max_retries)` loop of
`GoldDataFetcher.fetch_with_retry` (`gold_telegram_bot.py` lines 53-64),
run over the list of remaining attempt indices.  Returns the first
successful response (`none` if every attempt raised), the number of HTTP
calls made, and the list of back-off sleeps performed: after a failed
attempt `i` the code sleeps `2 ^ i` seconds, but only when
`i < max_retries - 1` (no sleep after the final attempt). -/
def retryGo {α : Type} (a : Nat → Attempt α) (maxRetries : Nat) :
    List Nat → Option α × Nat × List Nat
  | [] => (none, 0, [])
  | i :: is =>
    match a i with
    | Attempt.success v => (some v, 1, [])
    | Attempt.fail =>
      let r := retryGo a maxRetries is
      (r.1, r.2.1 + 1, (if i < maxRetries - 1 then [2 ^ i] else []) ++ r.2.2)

/-- `GoldDataFetcher.fetch_with_retry` (`gold_telegram_bot.py` lines
53-64), instrumented with the call count and sleep trace. -/
def fetch_with_retry {α : Type} (a : Nat → Attempt α) (maxRetries : Nat) :
    Option α × Nat × List Nat :=
  retryGo a maxRetries (List.range maxRetries)

/-- The `for source in sources` loop shared by `get_usd_inr` (lines
171-182) and `get_us_gold_price` (lines 205-216): each source is fetched
through `fetch_with_retry`; on a usable response the parsed value is
extracted and, if truthy (`e v = some b`), returned immediately;
otherwise the loop advances to the next source.  Returns the resolved
value (`none` when the whole chain is exhausted) together with the
number of HTTP calls made to each adapter of the chain, so `0` for every
adapter the loop never reached. -/
def resolveChain {α β : Type} (e : α → Option β) (maxRetries : Nat) :
    List (Nat → Attempt α) → Option β × List Nat
  | [] => (none, [])
  | a :: rest =>
    let r := fetch_with_retry a maxRetries
    match r.1 with
    | some v =>
      match e v with
      | some b => (some b, r.2.1 :: rest.map (fun _ => 0))
      | none =>
        let c := resolveChain e maxRetries rest
        (c.1, r.2.1 :: c.2)
    | none =>
      let c := resolveChain e maxRetries rest
      (c.1, r.2.1 :: c.2)

/-- The `if rate:` truthiness check of `get_usd_inr` line 177: a parsed
rate is usable when the field was present and non-zero. -/
def truthyQ : Option ℚ → Option ℚ
  | none => none
  | some v => if v = 0 then none else some v

/-- The `if current:` check of `get_us_gold_price` lines 210-213: the
parser yields `(current, previous)`; the pair is returned when `current`
is truthy, with `previous` kept only when itself truthy
(`float(previous) if previous else None`). -/
def extractGold : Option ℚ × Option ℚ → Option (ℚ × Option ℚ)
  | (none, _) => none
  | (some c, p) => if c = 0 then none else some (c, truthyQ p)

/-- `GoldDataFetcher.get_usd_inr` (`gold_telegram_bot.py` lines 150-186)
as a function of its source chain; `max_retries` is the default `3` at
every call site.  Falls back to the constant `83.50` of line 186 when
the chain is exhausted. -/
def get_usd_inr (chain : List (Nat → Attempt (Option ℚ))) : Option ℚ :=
  match (resolveChain truthyQ 3 chain).1 with
  | some r => some r
  | none => some 83.50

/-- `GoldDataFetcher.get_us_gold_price` (`gold_telegram_bot.py` lines
188-220) as a function of its source chain.  Falls back to the constant
pair `(2650.0, 2645.0)` of line 220 when the chain is exhausted. -/
def get_us_gold_price (chain : List (Nat → Attempt (Option ℚ × Option ℚ))) :
    Option ℚ × Option ℚ :=
  match (resolveChain extractGold 3 chain).1 with
  | some (c, p) => (some c, p)
  | none => (some 2650.0, some 2645.0)

/-- The derived-estimate fallback of `get_tata_gold_etf`
(`gold_telegram_bot.py` lines 96-109): when US gold and USD/INR are both
truthy, `nav_estimate = (us_gold * usd_inr) / 31.1035` rounded to 2
decimals is returned for both NAV and iNAV, else `(None, None)`. -/
def tataEstimate (goldChain : List (Nat → Attempt (Option ℚ × Option ℚ)))
    (fxChain : List (Nat → Attempt (Option ℚ))) : Option ℚ × Option ℚ :=
  match (get_us_gold_price goldChain).1, get_usd_inr fxChain with
  | some g, some r =>
    if g = 0 ∨ r = 0 then (none, none)
    else
      let nav_estimate := g * r / troyOunceToGrams
      (some (round2 nav_estimate), some (round2 nav_estimate))
  | _, _ => (none, none)

/-- `GoldDataFetcher.get_tata_gold_etf` (`gold_telegram_bot.py` lines
66-109).  `primary` is the NSE response: `none` when the request raised
or returned non-200, otherwise the `(lastPrice, close)` fields.  A
truthy `lastPrice` is returned directly (with `close` substituted by
`lastPrice` when falsy, line 91); any other primary outcome falls
through to the derived estimate. -/
def get_tata_gold_etf (primary : Option (Option ℚ × Option ℚ))
    (goldChain : List (Nat → Attempt (Option ℚ × Option ℚ)))
    (fxChain : List (Nat → Attempt (Option ℚ))) : Option ℚ × Option ℚ :=
  match primary with
  | some (some nav, inav) =>
    if nav = 0 then tataEstimate goldChain fxChain
    else
      (some nav, some (match truthyQ inav with | some iv => iv | none => nav))
  | some (none, _) => tataEstimate goldChain fxChain
  | none => tataEstimate goldChain fxChain

/-- The parallel-array store of `HistoricalDataStore`
(`gold_bot_enhanced.py` lines 224-262): the value of `self.data`. -/
structure HistoricalData where
  prices : List ℚ
  timestamps : List String
deriving DecidableEq

/-- `HistoricalDataStore.save_data` (`gold_bot_enhanced.py` lines
241-258), minus the file write (persistence failures are logged and
swallowed, so the in-memory state is as below regardless): append the
new point to both arrays, then keep only the last 1000 entries of each
when the price array has grown beyond 1000. -/
def save_data (d : HistoricalData) (price : ℚ) (timestamp : String) : HistoricalData :=
  let prices := d.prices ++ [price]
  let timestamps := d.timestamps ++ [timestamp]
  if prices.length > 1000 then
    ⟨prices.drop (prices.length - 1000), timestamps.drop (timestamps.length - 1000)⟩
  else
    ⟨prices, timestamps⟩

/-- The last `n` entries of a list (Python `l[-n:]`). -/
def lastN {α : Type} (n : Nat) (l : List α) : List α := l.drop (l.length - n)

/-- `save_data` composed over a `(price, timestamp)` pair, for iterating
the store over a stream of points. -/
def savePoint (d : HistoricalData) (pt : ℚ × String) : HistoricalData :=
  save_data d pt.1 pt.2

lemma retryGo_all_fail {α : Type} (a : Nat → Attempt α) (m : Nat) (l : List Nat)
    (h : ∀ i ∈ l, a i = Attempt.fail) :
    retryGo a m l =
      (none, l.length, (l.filter (fun i => decide (i < m - 1))).map (fun i => 2 ^ i)) := by
  induction l with
  | nil => rfl
  | cons i is ih =>
    have hi : a i = Attempt.fail := h i (by simp)
    have ihh := ih (fun j hj => h j (by simp [hj]))
    simp only [retryGo, hi, ihh, List.filter_cons, List.length_cons]
    by_cases hc : i < m - 1 <;> simp [hc]

lemma filter_range_lt (n k : Nat) :
    (List.range n).filter (fun i => decide (i < k)) = List.range (min n k) := by
  induction n with
  | zero => simp
  | succ n ih =>
    rw [List.range_succ, List.filter_append, ih]
    by_cases h : n < k
    · have h1 : min (n + 1) k = min n k + 1 := by omega
      have h2 : min n k = n := by omega
      simp [h, h1, h2, List.range_succ]
    · have h1 : min (n + 1) k = min n k := by omega
      simp [h, h1]

lemma retryGo_mem_of_success {α : Type} (a : Nat → Attempt α) (m : Nat)
    (l : List Nat) (v : α) (h : (retryGo a m l).1 = some v) :
    ∃ i ∈ l, a i = Attempt.success v := by
  induction l with
  | nil => exact absurd h (by simp [retryGo])
  | cons i is ih =>
    cases hai : a i with
    | success w =>
      refine ⟨i, by simp, ?_⟩
      simp only [retryGo, hai] at h
      rw [hai, Option.some_inj.mp h]
    | fail =>
      simp only [retryGo, hai] at h
      obtain ⟨j, hj, hs⟩ := ih h
      exact ⟨j, by simp [hj], hs⟩

lemma resolveChain_exhausted {α β : Type} (e : α → Option β) (m : Nat)
    (chain : List (Nat → Attempt α))
    (h : ∀ a ∈ chain, ∀ i, i < m → ∀ v, a i = Attempt.success v → e v = none) :
    (resolveChain e m chain).1 = none := by
  induction chain with
  | nil => rfl
  | cons a rest ih =>
    have hrest := ih (fun b hb => h b (by simp [hb]))
    cases hr : (fetch_with_retry a m).1 with
    | none => simp [resolveChain, hr, hrest]
    | some v =>
      obtain ⟨i, hi, hs⟩ := retryGo_mem_of_success a m (List.range m) v hr
      have he : e v = none := h a (by simp) i (List.mem_range.mp hi) v hs
      simp [resolveChain, hr, he, hrest]

lemma round2_mono {x y : ℚ} (h : x ≤ y) : round2 x ≤ round2 y := by
  have h1 : round (100 * x) ≤ round (100 * y) := by
    rw [round_eq, round_eq]
    exact Int.floor_mono (by linarith)
  have h2 : ((round (100 * x) : ℤ) : ℚ) ≤ ((round (100 * y) : ℤ) : ℚ) := by
    exact_mod_cast h1
  unfold round2
  linarith

lemma calculate_india_landed_rate_eq (g r : ℚ) (hg : g ≠ 0) (hr : r ≠ 0) :
    calculate_india_landed_rate (some g) (some r) =
      some (round2 (g * r / troyOunceToGrams * (1 + importDutyRate) * (1 + gstRate))) := by
  simp [calculate_india_landed_rate, hg, hr]

lemma save_data_prices (d : HistoricalData) (x : ℚ) (ts : String) :
    (save_data d x ts).prices = lastN 1000 (d.prices ++ [x]) := by
  unfold save_data lastN
  by_cases h : 1000 < d.prices.length + 1
  · simp [h]
  · have h0 : d.prices.length + 1 - 1000 = 0 := by omega
    simp [h, h0]

lemma save_data_timestamps (d : HistoricalData) (x : ℚ) (ts : String)
    (hlen : d.prices.length = d.timestamps.length) :
    (save_data d x ts).timestamps = lastN 1000 (d.timestamps ++ [ts]) := by
  unfold save_data lastN
  by_cases h : 1000 < d.prices.length + 1
  · simp [h]
  · have h0 : d.timestamps.length + 1 - 1000 = 0 := by omega
    simp [h, h0]

lemma lastN_length {α : Type} (n : Nat) (l : List α) :
    (lastN n l).length = min n l.length := by
  unfold lastN
  rw [List.length_drop]
  omega

lemma lastN_append_left {α : Type} (n : Nat) (xs ys : List α) :
    lastN n (lastN n xs ++ ys) = lastN n (xs ++ ys) := by
  by_cases h : n ≤ xs.length
  · simp only [lastN]
    have h1 : xs.drop (xs.length - n) ++ ys = (xs ++ ys).drop (xs.length - n) :=
      (List.drop_append_of_le_length (Nat.sub_le _ _)).symm
    rw [h1, List.drop_drop]
    congr 1
    simp only [List.length_drop, List.length_append]
    omega
  · simp only [lastN]
    have h0 : xs.length - n = 0 := by omega
    rw [h0, List.drop_zero]

lemma foldl_save (news : List (ℚ × String)) :
    ∀ d : HistoricalData,
      d.prices.length = d.timestamps.length →
      d.prices.length ≤ 1000 →
      (news.foldl savePoint d).prices = lastN 1000 (d.prices ++ news.map Prod.fst) ∧
      (news.foldl savePoint d).timestamps =
        lastN 1000 (d.timestamps ++ news.map Prod.snd) ∧
      (news.foldl savePoint d).prices.length = (news.foldl savePoint d).timestamps.length := by
  induction news with
  | nil =>
    intro d heq hle
    have hp : d.prices.length - 1000 = 0 := by omega
    have ht : d.timestamps.length - 1000 = 0 := by omega
    refine ⟨?_, ?_, heq⟩ <;> simp [lastN, hp, ht]
  | cons pt rest ih =>
    intro d heq hle
    have hp := save_data_prices d pt.1 pt.2
    have ht := save_data_timestamps d pt.1 pt.2 heq
    have heq2 : (savePoint d pt).prices.length = (savePoint d pt).timestamps.length := by
      rw [savePoint, hp, ht, lastN_length, lastN_length]
      simp only [List.length_append, List.length_cons, List.length_nil]
      omega
    have hle2 : (savePoint d pt).prices.length ≤ 1000 := by
      rw [savePoint, hp, lastN_length]
      omega
    obtain ⟨ihp, iht, ihl⟩ := ih (savePoint d pt) heq2 hle2
    refine ⟨?_, ?_, ?_⟩
    · rw [List.foldl_cons, ihp, savePoint, hp, lastN_append_left]
      simp
    · rw [List.foldl_cons, iht, savePoint, ht, lastN_append_left]
      simp
    · rw [List.foldl_cons]
      exact ihl

/-- C1: for international spot 2650.0, USD/INR 83.50 and previous close
2645.0, `calculate_india_landed_rate` returns exactly
`(2650.0 * 83.50 / 31.1035) * 1.125 * 1.03` rounded to 2 decimal places,
this value is 8243.52, and the US trend computed by `fetch_all_data` is
UP.  (The claimed approximate value 8231.19 is wrong; see the
counterexample.) -/
theorem claim_C1 :
    calculate_india_landed_rate (some 2650.0) (some 83.50) =
      some (round2 (2650.0 * 83.50 / 31.1035 * 1.125 * 1.03)) ∧
    round2 (2650.0 * 83.50 / 31.1035 * 1.125 * 1.03) = 8243.52 ∧
    (us_trend_pct (some 2650.0) (some 2645.0)).map Prod.fst = some Trend.up := by
  refine ⟨?_, ?_, ?_⟩
  · norm_num [calculate_india_landed_rate, troyOunceToGrams, importDutyRate, gstRate]
  · norm_num [round2, round_eq]
  · norm_num [us_trend_pct]

/-- C1 counterexample: the end-to-end landed rate at spot 2650.0 and FX
83.50 is 8243.52, which is not approximately 8231.19 (they differ by
more than 12). -/
theorem claim_C1_cex :
    calculate_india_landed_rate (some 2650.0) (some 83.50) = some 8243.52 ∧
    ((8243.52 : ℚ) ≠ 8231.19) ∧ |(8243.52 : ℚ) - 8231.19| > 12 := by
  refine ⟨?_, by norm_num, by rw [abs_of_pos] <;> norm_num⟩
  norm_num [calculate_india_landed_rate, round2, round_eq, troyOunceToGrams,
    importDutyRate, gstRate]

/-- C2: for present non-zero inputs, `calculate_india_landed_rate`
returns `((spot × fx) / 31.1035) × (1 + 0.125) × (1 + 0.03)` rounded to
2 decimal places (the formula of the spec, `landedRateSpec`), and it
returns `None` when either input is absent. -/
theorem claim_C2 :
    (∀ g r : ℚ, g ≠ 0 → r ≠ 0 →
      calculate_india_landed_rate (some g) (some r) = some (landedRateSpec g r)) ∧
    (∀ x : Option ℚ, calculate_india_landed_rate none x = none) ∧
    (∀ x : Option ℚ, calculate_india_landed_rate x none = none) := by
  refine ⟨?_, ?_, ?_⟩
  · intro g r hg hr
    rw [calculate_india_landed_rate_eq g r hg hr]
    simp [landedRateSpec, troyOunceToGrams, importDutyRate, gstRate]
  · intro x
    rfl
  · intro x
    cases x <;> rfl

/-- C2 witness: the refinement at spot 1, FX 2. -/
theorem claim_C2_witness :
    calculate_india_landed_rate (some 1) (some 2) = some (landedRateSpec 1 2) :=
  claim_C2.1 1 2 one_ne_zero two_ne_zero

/-- C3 counterexample: at spot 2650.0, FX 83.50 the price returned by
`get_mcx_gold` is 72920.05 (two decimal places), while rounding the same
formula to the nearest whole unit as the claim demands gives 72920. -/
theorem claim_C3_cex :
    (get_mcx_gold (some 2650.0, some 2645.0) (some 83.50)).1 = some 72920.05 ∧
    mcxPriceSpec 2650.0 83.50 = 72920 ∧ ((72920.05 : ℚ) ≠ 72920) := by
  refine ⟨?_, ?_, by norm_num⟩
  · norm_num [get_mcx_gold, round2, round_eq, troyOunceToGrams, mcxPremium]
  · norm_num [mcxPriceSpec, round_eq]

/-- C3 (amended): for every pair of present non-zero inputs, the MCX
price returned by `get_mcx_gold` equals
`((spot × fx) / 31.1035) × 10 × 1.025` rounded to 2 decimal places (not
to the nearest whole unit). -/
theorem claim_C3 (c r : ℚ) (p : Option ℚ) (hc : c ≠ 0) (hr : r ≠ 0) :
    (get_mcx_gold (some c, p) (some r)).1 =
      some (round2 (c * r / 31.1035 * 10 * 1.025)) := by
  simp [get_mcx_gold, hc, hr, troyOunceToGrams, mcxPremium]

/-- C3 witness: the amended claim at spot 1, FX 2 with no previous
close. -/
theorem claim_C3_witness :
    (get_mcx_gold (some 1, none) (some 2)).1 =
      some (round2 (1 * 2 / 31.1035 * 10 * 1.025)) :=
  claim_C3 1 2 none one_ne_zero two_ne_zero

/-- C4: the source loop short-circuits.  If every adapter before `a` in
the chain is exhausted (no truthy success within the retry budget) and
`a` yields a truthy value `b`, the loop returns `b` and makes zero HTTP
calls to every adapter after `a` — even if a later adapter would also
have succeeded (`rest` is arbitrary, so in particular it may consist of
always-succeeding adapters). -/
theorem claim_C4 {α β : Type} (e : α → Option β) (m : Nat)
    (pre : List (Nat → Attempt α)) (a : Nat → Attempt α)
    (rest : List (Nat → Attempt α)) (v : α) (b : β)
    (hpre : ∀ p ∈ pre, ∀ i, i < m → ∀ w, p i = Attempt.success w → e w = none)
    (h1 : (fetch_with_retry a m).1 = some v) (h2 : e v = some b) :
    (resolveChain e m (pre ++ a :: rest)).1 = some b ∧
    (resolveChain e m (pre ++ a :: rest)).2 =
      pre.map (fun p => (fetch_with_retry p m).2.1) ++
        (fetch_with_retry a m).2.1 :: rest.map (fun _ => 0) := by
  induction pre with
  | nil =>
    constructor <;> simp [resolveChain, h1, h2]
  | cons p pre ih =>
    have hp := hpre p (by simp)
    have ih2 := ih (fun q hq i hi w hw => hpre q (by simp [hq]) i hi w hw)
    cases hr : (fetch_with_retry p m).1 with
    | none =>
      constructor
      · simpa [resolveChain, hr] using ih2.1
      · simp [resolveChain, hr, ih2.2]
    | some w =>
      obtain ⟨i, hi, hs⟩ := retryGo_mem_of_success p m (List.range m) w hr
      have hew : e w = none := hp i (List.mem_range.mp hi) w hs
      constructor
      · simpa [resolveChain, hr, hew] using ih2.1
      · simp [resolveChain, hr, hew, ih2.2]

/-- C4 witness: a two-adapter chain in which adapter 1 succeeds with 83
and adapter 2 would also succeed (with 80): the resolver returns 83
after one call to adapter 1 and zero calls to adapter 2. -/
theorem claim_C4_witness :
    (resolveChain truthyQ 3
        (([] : List (Nat → Attempt (Option ℚ))) ++
          (fun (_ : Nat) => Attempt.success (some (83 : ℚ))) ::
          [fun (_ : Nat) => Attempt.success (some (80 : ℚ))])).1 = some 83 ∧
    (resolveChain truthyQ 3
        (([] : List (Nat → Attempt (Option ℚ))) ++
          (fun (_ : Nat) => Attempt.success (some (83 : ℚ))) ::
          [fun (_ : Nat) => Attempt.success (some (80 : ℚ))])).2 =
      List.map (fun p => (fetch_with_retry p 3).2.1)
          ([] : List (Nat → Attempt (Option ℚ))) ++
        (fetch_with_retry (fun (_ : Nat) => Attempt.success (some (83 : ℚ))) 3).2.1 ::
          List.map (fun _ => 0)
            [fun (_ : Nat) => Attempt.success (some (80 : ℚ))] :=
  claim_C4 truthyQ 3 [] _ _ (some 83) 83
    (fun p hp => absurd hp (List.not_mem_nil p)) rfl rfl

/-- C5: an adapter that fails on attempts `0, ..., maxRetries - 1` is
retried exactly `maxRetries` times, with back-off sleeps
`2^0, 2^1, ..., 2^(maxRetries - 2)` between consecutive attempts, and
then the chain falls through to the next adapter — even though the
adapter would succeed on the `(maxRetries + 1)`-th call (`a maxRetries`
succeeds). -/
theorem claim_C5 {α β : Type} (e : α → Option β) (m : Nat)
    (a : Nat → Attempt α) (rest : List (Nat → Attempt α)) (v : α)
    (hfail : ∀ i, i < m → a i = Attempt.fail)
    (hnext : a m = Attempt.success v) :
    fetch_with_retry a m = (none, m, (List.range (m - 1)).map (fun i => 2 ^ i)) ∧
    (resolveChain e m (a :: rest)).1 = (resolveChain e m rest).1 := by
  have hall : ∀ i ∈ List.range m, a i = Attempt.fail :=
    fun i hi => hfail i (List.mem_range.mp hi)
  have h1 : fetch_with_retry a m =
      (none, m, (List.range (m - 1)).map (fun i => 2 ^ i)) := by
    unfold fetch_with_retry
    rw [retryGo_all_fail a m _ hall, filter_range_lt, List.length_range]
    have hmin : min m (m - 1) = m - 1 := by omega
    rw [hmin]
  exact ⟨h1, by simp [resolveChain, h1]⟩

/-- C5 witness: an adapter failing on attempts 0, 1, 2 and succeeding on
attempt 3 under `maxRetries = 3`: the retry loop makes 3 calls, sleeps
1 then 2 seconds, returns no value, and the chain falls through to the
next adapter. -/
theorem claim_C5_witness :
    fetch_with_retry
        (fun (i : Nat) => if i < 3 then Attempt.fail else Attempt.success (some (99 : ℚ))) 3 =
      (none, 3, (List.range (3 - 1)).map (fun i => 2 ^ i)) ∧
    (resolveChain truthyQ 3
        ((fun (i : Nat) => if i < 3 then Attempt.fail else Attempt.success (some (99 : ℚ))) ::
          [fun (_ : Nat) => Attempt.success (some (80 : ℚ))])).1 =
      (resolveChain truthyQ 3 [fun (_ : Nat) => Attempt.success (some (80 : ℚ))]).1 :=
  claim_C5 truthyQ 3 _ _ (some 99) (fun i hi => if_pos hi) (if_neg (by decide))

/-- C6: when every adapter of the chain is exhausted, `get_usd_inr`
returns the static fallback 83.50 and `get_us_gold_price` returns the
static fallback pair (2650.0, 2645.0); moreover the USD/INR rate and
the current international spot price are never absent, whatever the
chains do. -/
theorem claim_C6 :
    (∀ chain : List (Nat → Attempt (Option ℚ)),
      (∀ a ∈ chain, ∀ i, i < 3 → ∀ v, a i = Attempt.success v → truthyQ v = none) →
      get_usd_inr chain = some 83.50) ∧
    (∀ chain : List (Nat → Attempt (Option ℚ × Option ℚ)),
      (∀ a ∈ chain, ∀ i, i < 3 → ∀ v, a i = Attempt.success v → extractGold v = none) →
      get_us_gold_price chain = (some 2650.0, some 2645.0)) ∧
    (∀ chain : List (Nat → Attempt (Option ℚ)),
      (get_usd_inr chain).isSome = true) ∧
    (∀ chain : List (Nat → Attempt (Option ℚ × Option ℚ)),
      ((get_us_gold_price chain).1).isSome = true) := by
  refine ⟨?_, ?_, ?_, ?_⟩
  · intro chain h
    have hn := resolveChain_exhausted truthyQ 3 chain h
    simp [get_usd_inr, hn]
  · intro chain h
    have hn := resolveChain_exhausted extractGold 3 chain h
    simp [get_us_gold_price, hn]
  · intro chain
    cases hr : (resolveChain truthyQ 3 chain).1 with
    | none => simp [get_usd_inr, hr]
    | some r => simp [get_usd_inr, hr]
  · intro chain
    cases hr : (resolveChain extractGold 3 chain).1 with
    | none => simp [get_us_gold_price, hr]
    | some cp =>
      obtain ⟨c, p⟩ := cp
      simp [get_us_gold_price, hr]

/-- C6 witness: with a single always-failing adapter in each chain, the
FX rate resolves to 83.50 and the spot price to (2650.0, 2645.0); with
a zero-yielding adapter the FX rate is still present. -/
theorem claim_C6_witness :
    get_usd_inr [fun (_ : Nat) => Attempt.fail] = some 83.50 ∧
    get_us_gold_price [fun (_ : Nat) => Attempt.fail] = (some 2650.0, some 2645.0) ∧
    (get_usd_inr [fun (_ : Nat) => Attempt.success (some 0)]).isSome = true :=
  ⟨claim_C6.1 [fun (_ : Nat) => Attempt.fail]
      (by
        intro a ha i hi v hv
        rw [List.mem_singleton] at ha
        subst ha
        exact Attempt.noConfusion hv),
   claim_C6.2.1 [fun (_ : Nat) => Attempt.fail]
      (by
        intro a ha i hi v hv
        rw [List.mem_singleton] at ha
        subst ha
        exact Attempt.noConfusion hv),
   claim_C6.2.2.1 [fun (_ : Nat) => Attempt.success (some 0)]⟩

/-- C7 counterexample: the claim demands UP whenever current > previous,
but at current = 100, previous = 0 (a present pair with 100 > 0) the
code computes no trend at all: a zero previous close is treated as
missing. -/
theorem claim_C7_cex :
    ((0 : ℚ) < 100) ∧ us_trend_pct (some 100) (some 0) = none := by
  refine ⟨by norm_num, by norm_num [us_trend_pct]⟩

/-- C7 (amended): for the US-trend classification of `fetch_all_data`,
restricted to present non-zero pairs: UP when current > previous, DOWN
when current < previous, FLAT when equal; UNKNOWN (no trend) when either
side is absent or zero; and the four concrete vectors
classify(100, 90) = UP, classify(90, 100) = DOWN,
classify(100, 100) = FLAT, classify(100, absent) = UNKNOWN all hold.
(The MCX trend of `get_mcx_gold` additionally applies a ±50 threshold
before choosing FLAT, so the strict comparisons apply only to the
`fetch_all_data` classifier.) -/
theorem claim_C7 :
    (∀ c p : ℚ, c ≠ 0 → p ≠ 0 →
      ((p < c → (us_trend_pct (some c) (some p)).map Prod.fst = some Trend.up) ∧
       (c < p → (us_trend_pct (some c) (some p)).map Prod.fst = some Trend.down) ∧
       (c = p → (us_trend_pct (some c) (some p)).map Prod.fst = some Trend.flat))) ∧
    (∀ c : Option ℚ, us_trend_pct c none = none) ∧
    (∀ p : Option ℚ, us_trend_pct none p = none) ∧
    (∀ c : Option ℚ, us_trend_pct c (some 0) = none) ∧
    (∀ p : Option ℚ, us_trend_pct (some 0) p = none) ∧
    (us_trend_pct (some 100) (some 90)).map Prod.fst = some Trend.up ∧
    (us_trend_pct (some 90) (some 100)).map Prod.fst = some Trend.down ∧
    (us_trend_pct (some 100) (some 100)).map Prod.fst = some Trend.flat ∧
    us_trend_pct (some 100) none = none := by
  refine ⟨?_, ?_, ?_, ?_, ?_, ?_, ?_, ?_, ?_⟩
  · intro c p hc hp
    refine ⟨?_, ?_, ?_⟩
    · intro hlt
      have h1 : c - p > 0 := by linarith
      simp [us_trend_pct, hc, hp, h1]
    · intro hlt
      have h1 : ¬(c - p > 0) := by linarith
      have h2 : c - p < 0 := by linarith
      simp [us_trend_pct, hc, hp, h1, h2]
    · intro heq
      subst heq
      simp [us_trend_pct, hc]
  · intro c
    cases c <;> rfl
  · intro p
    rfl
  · intro c
    cases c with
    | none => rfl
    | some cv => simp [us_trend_pct]
  · intro p
    cases p with
    | none => rfl
    | some pv => simp [us_trend_pct]
  · norm_num [us_trend_pct]
  · norm_num [us_trend_pct]
  · norm_num [us_trend_pct]
  · rfl

/-- C7 witness: the amended classification at current 2, previous 1. -/
theorem claim_C7_witness :
    (us_trend_pct (some 2) (some 1)).map Prod.fst = some Trend.up :=
  (claim_C7.1 2 1 two_ne_zero one_ne_zero).1 one_lt_two

/-- C8: starting from any store state within the cap with equal-length
arrays, appending `1000 + k` points through `save_data` leaves exactly
1000 points in each array, equal to the last 1000 entries of the whole
appended stream (so the oldest entries are evicted and most-recent-last
ordering is preserved); and after every append both arrays have equal
length and never exceed the cap. -/
theorem claim_C8 (d : HistoricalData) (news : List (ℚ × String)) (k : Nat)
    (heq : d.prices.length = d.timestamps.length)
    (hle : d.prices.length ≤ 1000)
    (hlen : news.length = 1000 + k) :
    (news.foldl savePoint d).prices.length = 1000 ∧
    (news.foldl savePoint d).timestamps.length = 1000 ∧
    (news.foldl savePoint d).prices =
      (d.prices ++ news.map Prod.fst).drop (d.prices.length + k) ∧
    (news.foldl savePoint d).timestamps =
      (d.timestamps ++ news.map Prod.snd).drop (d.timestamps.length + k) ∧
    ∀ pre : List (ℚ × String),
      (pre.foldl savePoint d).prices.length =
        (pre.foldl savePoint d).timestamps.length ∧
      (pre.foldl savePoint d).prices.length ≤ 1000 := by
  obtain ⟨hp, ht, hl⟩ := foldl_save news d heq hle
  have hplen : (d.prices ++ news.map Prod.fst).length =
      d.prices.length + (1000 + k) := by
    simp [hlen]
  have htlen : (d.timestamps ++ news.map Prod.snd).length =
      d.timestamps.length + (1000 + k) := by
    simp [hlen]
  refine ⟨?_, ?_, ?_, ?_, ?_⟩
  · rw [hp, lastN_length, hplen]
    omega
  · rw [ht, lastN_length, htlen]
    omega
  · rw [hp]
    unfold lastN
    have hidx : (d.prices ++ news.map Prod.fst).length - 1000 =
        d.prices.length + k := by
      rw [hplen]
      omega
    rw [hidx]
  · rw [ht]
    unfold lastN
    have hidx : (d.timestamps ++ news.map Prod.snd).length - 1000 =
        d.timestamps.length + k := by
      rw [htlen]
      omega
    rw [hidx]
  · intro pre
    obtain ⟨hp2, ht2, hl2⟩ := foldl_save pre d heq hle
    refine ⟨hl2, ?_⟩
    rw [hp2, lastN_length]
    omega

/-- C8 witness: appending 1000 points to the empty store leaves exactly
1000 prices. -/
theorem claim_C8_witness :
    ((List.replicate 1000 ((1 : ℚ), "t")).foldl savePoint ⟨[], []⟩).prices.length
      = 1000 :=
  (claim_C8 ⟨[], []⟩ (List.replicate 1000 ((1 : ℚ), "t")) 0 rfl
    (by decide) (by rw [List.length_replicate])).1

/-- C9: for valid (positive) inputs, the landed rate computed by
`calculate_india_landed_rate` is monotonically non-decreasing in the
spot price (FX held fixed) and in the FX rate (spot held fixed). -/
theorem claim_C9 (g1 g2 r1 r2 : ℚ) (hg1 : 0 < g1) (hr1 : 0 < r1)
    (hg : g1 ≤ g2) (hr : r1 ≤ r2) :
    ∃ v1 v2 v3,
      calculate_india_landed_rate (some g1) (some r1) = some v1 ∧
      calculate_india_landed_rate (some g2) (some r1) = some v2 ∧
      calculate_india_landed_rate (some g1) (some r2) = some v3 ∧
      v1 ≤ v2 ∧ v1 ≤ v3 := by
  have hg2 : 0 < g2 := lt_of_lt_of_le hg1 hg
  have hr2 : 0 < r2 := lt_of_lt_of_le hr1 hr
  refine ⟨_, _, _,
    calculate_india_landed_rate_eq g1 r1 (ne_of_gt hg1) (ne_of_gt hr1),
    calculate_india_landed_rate_eq g2 r1 (ne_of_gt hg2) (ne_of_gt hr1),
    calculate_india_landed_rate_eq g1 r2 (ne_of_gt hg1) (ne_of_gt hr2),
    round2_mono ?_, round2_mono ?_⟩
  · have h12 : g1 * r1 ≤ g2 * r1 := mul_le_mul_of_nonneg_right hg hr1.le
    simp only [troyOunceToGrams, importDutyRate, gstRate]
    norm_num
    linarith
  · have h12 : g1 * r1 ≤ g1 * r2 := mul_le_mul_of_nonneg_left hr hg1.le
    simp only [troyOunceToGrams, importDutyRate, gstRate]
    norm_num
    linarith

/-- C9 witness: monotonicity instantiated at spot 1 against 2 and FX 1
against 2. -/
theorem claim_C9_witness :
    ∃ v1 v2 v3,
      calculate_india_landed_rate (some 1) (some 1) = some v1 ∧
      calculate_india_landed_rate (some 2) (some 1) = some v2 ∧
      calculate_india_landed_rate (some 1) (some 2) = some v3 ∧
      v1 ≤ v2 ∧ v1 ≤ v3 :=
  claim_C9 1 2 1 2 one_pos one_pos one_le_two one_le_two

/-- C10: a fetched value of 0 is treated exactly like a failure:
a source of `get_usd_inr` whose retry loop yields 0 causes fallthrough
to the rest of the chain; likewise a source of `get_us_gold_price`
whose current price is 0; `get_tata_gold_etf` falls back to the derived
estimate when the primary source yields a zero last price; and
`fetch_all_data` computes no US trend when the previous close is 0.0 or
absent, so the percent-change division only ever happens with a
non-zero divisor. -/
theorem claim_C10 :
    (∀ (a : Nat → Attempt (Option ℚ)) (rest : List (Nat → Attempt (Option ℚ))),
      (fetch_with_retry a 3).1 = some (some 0) →
      get_usd_inr (a :: rest) = get_usd_inr rest) ∧
    (∀ (a : Nat → Attempt (Option ℚ × Option ℚ))
       (rest : List (Nat → Attempt (Option ℚ × Option ℚ))) (p : Option ℚ),
      (fetch_with_retry a 3).1 = some (some 0, p) →
      get_us_gold_price (a :: rest) = get_us_gold_price rest) ∧
    (∀ (inav : Option ℚ)
       (goldChain : List (Nat → Attempt (Option ℚ × Option ℚ)))
       (fxChain : List (Nat → Attempt (Option ℚ))),
      get_tata_gold_etf (some (some 0, inav)) goldChain fxChain =
        tataEstimate goldChain fxChain) ∧
    (∀ c : Option ℚ,
      us_trend_pct c (some 0) = none ∧ us_trend_pct c none = none) ∧
    (∀ (c p : ℚ) (t : Trend) (q : ℚ),
      us_trend_pct (some c) (some p) = some (t, q) →
      p ≠ 0 ∧ q = (c - p) / p * 100) := by
  refine ⟨?_, ?_, ?_, ?_, ?_⟩
  · intro a rest h
    have ht : truthyQ (some (0 : ℚ)) = none := by simp [truthyQ]
    simp [get_usd_inr, resolveChain, h, ht]
  · intro a rest p h
    have ht : extractGold (some (0 : ℚ), p) = none := by simp [extractGold]
    simp [get_us_gold_price, resolveChain, h, ht]
  · intro inav goldChain fxChain
    simp [get_tata_gold_etf]
  · intro c
    constructor
    · cases c with
      | none => rfl
      | some cv => simp [us_trend_pct]
    · cases c <;> rfl
  · intro c p t q h
    by_cases hc : c = 0
    · simp [us_trend_pct, hc] at h
    · by_cases hp : p = 0
      · simp [us_trend_pct, hp] at h
      · refine ⟨hp, ?_⟩
        simp only [us_trend_pct, hc, hp, or_self, if_false] at h
        split_ifs at h <;>
          · simp only [Option.some_inj, Prod.mk.injEq] at h
            exact h.2.symm

/-- C10 witness: a USD/INR source succeeding with the value 0 behaves
like a missing source, and a zero previous close yields no trend. -/
theorem claim_C10_witness :
    get_usd_inr [fun (_ : Nat) => Attempt.success (some (0 : ℚ))] =
      get_usd_inr [] ∧
    us_trend_pct (some (1 : ℚ)) (some 0) = none :=
  ⟨claim_C10.1 (fun (_ : Nat) => Attempt.success (some (0 : ℚ))) [] rfl,
   (claim_C10.2.2.2.1 (some 1)).1⟩

end GoldTracker
